import Mathlib

/-!
Shallow embedding of `arkctl/v1/cmd/deploy/deploy.go`: the `arkctl deploy`
pipeline (build → resolve → uninstall → install) over one shared execution
context, together with theorems about its control flow, bundle resolution,
target selection and context-write discipline.

External collaborators (the cobra CLI layer, the `cmdutil` subprocess runner,
`ark.ParseBizModel`, and the `ark.Service` install/uninstall calls) are not
part of the translated unit; their observable outcomes are inputs of the
embedding (`Env`), and where a claim depends on their behaviour the
definitions say so in their doc comments.
-/

namespace ArkctlDeploy

/-- Go `strings.HasSuffix s suf`: `suf` is a suffix of `s`
(character-sequence level; the inputs of interest are ASCII). -/
def goHasSuffix (s suf : String) : Bool :=
  decide (List.IsSuffix suf.data s.data)

/-- The module-artifact suffix searched for by the resolve stage
(`deploy.go`, `execParseBizModel`). -/
def arkBizSuffix : String := "-ark-biz.jar"

/-- The flag state produced by the (external) cobra CLI layer before
`DeployCommand.Args` runs: the four flag values of `deploy.go`'s `init`,
whether `--bundle` / `--build` were supplied (`cmd.Flags().Changed`),
and the working directory returned by `os.Getwd`. -/
structure Flags where
  buildFlag : String
  bundleFlag : String
  portFlag : Int
  podFlag : String
  bundleChanged : Bool
  buildChanged : Bool
  cwd : String
  deriving DecidableEq

/-- The two globals fixed by `DeployCommand.Args` for the whole invocation:
`doLocalBuildBundle` and the (possibly defaulted) `buildFlag`. -/
structure ArgsState where
  doLocalBuildBundle : Bool
  buildFlag : String
  deriving DecidableEq

/-- Embedding of `DeployCommand.Args` (deploy.go): `doLocalBuildBundle = !Changed("bundle")`;
if building locally and `--build` was not supplied, `buildFlag` defaults to
the current working directory. -/
def deployCommandArgs (f : Flags) : ArgsState :=
  let doLocalBuildBundle := !f.bundleChanged
  if doLocalBuildBundle && !f.buildChanged then
    { doLocalBuildBundle := doLocalBuildBundle, buildFlag := f.cwd }
  else
    { doLocalBuildBundle := doLocalBuildBundle, buildFlag := f.buildFlag }

/-- Embedding of `ark.ArkContainerRunType`: the two runtime-target variants. -/
inductive ArkContainerRunType
  | Local
  | K8s
  deriving DecidableEq

/-- Embedding of `ark.ArkContainerRuntimeInfo`: runtime-target descriptor. `coordinate`
is Go's zero value `""` unless the Kubernetes branch sets it. -/
structure ArkContainerRuntimeInfo where
  runType : ArkContainerRunType
  port : Int
  coordinate : String
  deriving DecidableEq

/-- Embedding of `ark.BizModel`: the module descriptor produced by `ark.ParseBizModel`. -/
structure BizModel where
  bizName : String
  bizVersion : String
  deriving DecidableEq

/-- Opaque handle standing for the `ark.Service` built by `ark.BuildService`. -/
inductive ArkService
  | service
  deriving DecidableEq

/-- The three well-known execution-context keys of `deploy.go`
(`ctxKeyArkService`, `ctxKeyBizModel`, `ctxKeyArkContainerRuntimeInfo`). -/
inductive CtxKey
  | arkService
  | bizModel
  | arkContainerRuntimeInfo
  deriving DecidableEq

/-- The component performing a context write or other observable action. -/
inductive StageTag
  | generateContext
  | execMavenBuild
  | execParseBizModel
  | execUnInstall
  | execInstall
  deriving DecidableEq

/-- Observable actions of a pipeline run, recorded in order. -/
inductive Event
  /-- A `ctx.Put(key, ...)` performed by `writer`. -/
  | put (key : CtxKey) (writer : StageTag)
  /-- The `"build bundle skipped!"` log line of `execMavenBuild`. -/
  | logBuildSkipped
  /-- The maven subprocess is constructed and executed (`mvn.Exec()`),
  with the given working directory. -/
  | mavenExec (workDir : String)
  /-- The call of `filepath.Walk` on the given directory. -/
  | walkDir (dir : String)
  /-- The parser `ark.ParseBizModel` is handed the given artifact locator. -/
  | parseBizModel (locator : String)
  /-- The `"can not find pre built biz bundle in build dir!"` failure. -/
  | resolutionError
  deriving DecidableEq

/-- The execution context (`contextutil.Context`): the three well-known keys
as typed optional fields (absent = never `Put`), plus the ordered event log
used to state observation properties. -/
structure Ctx where
  arkService : Option ArkService := none
  bizModel : Option BizModel := none
  arkContainerRuntimeInfo : Option ArkContainerRuntimeInfo := none
  events : List Event := []
  deriving DecidableEq

/-- Embedding of `ctx.Put(ctxKeyArkService, s)`. -/
def Ctx.putArkService (c : Ctx) (s : ArkService) (w : StageTag) : Ctx :=
  { c with arkService := some s,
           events := c.events ++ [Event.put CtxKey.arkService w] }

/-- Embedding of `ctx.Put(ctxKeyBizModel, m)`. -/
def Ctx.putBizModel (c : Ctx) (m : BizModel) (w : StageTag) : Ctx :=
  { c with bizModel := some m,
           events := c.events ++ [Event.put CtxKey.bizModel w] }

/-- Embedding of `ctx.Put(ctxKeyArkContainerRuntimeInfo, i)`. -/
def Ctx.putArkContainerRuntimeInfo (c : Ctx) (i : ArkContainerRuntimeInfo)
    (w : StageTag) : Ctx :=
  { c with arkContainerRuntimeInfo := some i,
           events := c.events ++ [Event.put CtxKey.arkContainerRuntimeInfo w] }

/-- A Go runtime panic reachable from the translated code. -/
inductive GoPanic
  /-- Calling a method (`info.IsDir()`) on a nil `os.FileInfo` interface value. -/
  | nilFileInfo
  /-- A failed type assertion `ctx.Value(key).(T)` (missing key). -/
  | failedTypeAssertion
  deriving DecidableEq

/-- The `os.FileInfo` data read by the walk callback. -/
structure FileInfoData where
  name : String
  isDir : Bool
  deriving DecidableEq

/-- One invocation of the `filepath.Walk` callback, in traversal order:
the `path` argument, the `info` argument (`none` models a nil `os.FileInfo`,
as delivered together with a walk error), and whether the error argument
was non-nil (the source ignores it). -/
structure WalkEntry where
  path : String
  info : Option FileInfoData
  errPresent : Bool
  deriving DecidableEq

/-- Outcome of the maven subprocess: it either could not be spawned at all,
or ran to completion with an exit code. -/
inductive MvnResult
  | launchError
  | exited (code : Int)
  deriving DecidableEq

/-- An error value surfaced by the subprocess runner. -/
inductive GoErr
  | launchFailure
  | exitFailure (code : Int)
  deriving DecidableEq

/-- Error from `ark.ParseBizModel` (malformed artifact, missing manifest). -/
structure ParseErr where
  msg : String
  deriving DecidableEq

/-- Error from an `ark.Service` install/uninstall call. -/
structure ServiceErr where
  msg : String
  deriving DecidableEq

/-- Outcomes of the external collaborators for one invocation: the maven
subprocess result, the filesystem traversal delivered by `filepath.Walk`,
and the results of `ark.ParseBizModel` / `ark.Service` calls. -/
structure Env where
  mvnResult : MvnResult
  walkEntries : List WalkEntry
  parseBizModel : String → Except ParseErr BizModel
  unInstallBiz : BizModel → ArkContainerRuntimeInfo → Option ServiceErr
  installBiz : BizModel → ArkContainerRuntimeInfo → Option ServiceErr

/-- Modelled from the spec: the Subprocess Runner (`cmdutil` package) is not
under `src/`. Per §4.2 the start operation reports a `LaunchError` iff the
executable cannot be spawned. -/
def mvnExecErr : MvnResult → Option GoErr
  | MvnResult.launchError => some GoErr.launchFailure
  | MvnResult.exited _ => none

/-- Modelled from the spec: the Subprocess Runner (`cmdutil` package) is not
under `src/`. Per §4.2/§5 the completion signal always fires (the pipeline
must not hang) and carries an error unless the process ran and exited 0;
per §7 every error of the taxonomy, including `LaunchError`, is terminal. -/
def mvnWaitErr : MvnResult → Option GoErr
  | MvnResult.launchError => some GoErr.launchFailure
  | MvnResult.exited code => if code ≠ 0 then some (GoErr.exitFailure code) else none

/-- Modelled from the spec: exit-status accessor of the Subprocess Runner
(`cmdutil`, not under `src/`), valid after completion; an error iff the
process exited non-zero. -/
def mvnGetExitError : MvnResult → Option GoErr
  | MvnResult.launchError => some GoErr.launchFailure
  | MvnResult.exited code => if code ≠ 0 then some (GoErr.exitFailure code) else none

/-- Embedding of `execMavenBuild` (deploy.go): when `doLocalBuildBundle` is false the
source only logs `"build bundle skipped!"` — there is no early return, so
control falls through and the maven subprocess is still constructed and
executed. The error of `mvn.Exec()` is logged but does not end the stage;
the stage fails on a completion error or a non-zero exit status. -/
def execMavenBuild (env : Env) (st : ArgsState) (c : Ctx) :
    Except GoPanic (Bool × Ctx) :=
  let c :=
    if !st.doLocalBuildBundle then
      { c with events := c.events ++ [Event.logBuildSkipped] }
    else c
  let c := { c with events := c.events ++ [Event.mavenExec st.buildFlag] }
  match mvnWaitErr env.mvnResult with
  | some _ => Except.ok (false, c)
  | none =>
    match mvnGetExitError env.mvnResult with
    | some _ => Except.ok (false, c)
    | none => Except.ok (true, c)

/-- The anonymous `filepath.Walk` callback of `execParseBizModel`: it reads
`info.IsDir()` and `info.Name()` without inspecting the error argument, so a
nil `os.FileInfo` (delivered when traversal reports an error) is a nil
interface dereference — a Go runtime panic. -/
def walkCallback (bundlePath : String) (e : WalkEntry) : Except GoPanic String :=
  match e.info with
  | none => Except.error GoPanic.nilFileInfo
  | some info =>
    Except.ok (if !info.isDir && goHasSuffix info.name arkBizSuffix then e.path
               else bundlePath)

/-- Embedding of `filepath.Walk` applied to the callback above: folds the traversal in
order through the captured `bundlePath` variable; a panic propagates. -/
def filepathWalk (entries : List WalkEntry) (bundlePath : String) :
    Except GoPanic String :=
  match entries with
  | [] => Except.ok bundlePath
  | e :: rest =>
    match walkCallback bundlePath e with
    | Except.error p => Except.error p
    | Except.ok bp => filepathWalk rest bp

/-- The tail of `execParseBizModel`: hand the locator to `ark.ParseBizModel`
and on success `Put` the biz model into the context. -/
def parseAndStore (env : Env) (locator : String) (c : Ctx) :
    Except GoPanic (Bool × Ctx) :=
  let c := { c with events := c.events ++ [Event.parseBizModel locator] }
  match env.parseBizModel locator with
  | Except.error _ => Except.ok (false, c)
  | Except.ok bizModel =>
    Except.ok (true, c.putBizModel bizModel StageTag.execParseBizModel)

/-- Embedding of `execParseBizModel` (deploy.go): when building locally, walk the search
directory (the build flag, defaulted to the working directory when empty),
keep the last path whose file name ends with `-ark-biz.jar`, fail when the
resulting `bundlePath` lacks that suffix, and otherwise prepend `file://`;
when a bundle was supplied, use `bundleFlag` directly with no walk and no
normalization. -/
def execParseBizModel (env : Env) (flags : Flags) (st : ArgsState) (c : Ctx) :
    Except GoPanic (Bool × Ctx) :=
  if st.doLocalBuildBundle then
    let searchdir := if st.buildFlag = "" then flags.cwd else st.buildFlag
    let c := { c with events := c.events ++ [Event.walkDir searchdir] }
    match filepathWalk env.walkEntries flags.bundleFlag with
    | Except.error p => Except.error p
    | Except.ok bundlePath =>
      if !goHasSuffix bundlePath arkBizSuffix then
        Except.ok (false, { c with events := c.events ++ [Event.resolutionError] })
      else
        parseAndStore env ("file://" ++ bundlePath) c
  else
    parseAndStore env flags.bundleFlag c

/-- Embedding of `execUnInstall` (deploy.go): reads the three context keys via Go type
assertions (a missing key panics), then calls `arkService.UnInstallBiz`;
an error means stage failure. The context is not written. -/
def execUnInstall (env : Env) (c : Ctx) : Except GoPanic (Bool × Ctx) :=
  match c.arkService, c.bizModel, c.arkContainerRuntimeInfo with
  | some _, some bizModel, some info =>
    match env.unInstallBiz bizModel info with
    | some _ => Except.ok (false, c)
    | none => Except.ok (true, c)
  | _, _, _ => Except.error GoPanic.failedTypeAssertion

/-- Embedding of `execInstall` (deploy.go): same shape as `execUnInstall`, calling
`arkService.InstallBiz`. -/
def execInstall (env : Env) (c : Ctx) : Except GoPanic (Bool × Ctx) :=
  match c.arkService, c.bizModel, c.arkContainerRuntimeInfo with
  | some _, some bizModel, some info =>
    match env.installBiz bizModel info with
    | some _ => Except.ok (false, c)
    | none => Except.ok (true, c)
  | _, _, _ => Except.error GoPanic.failedTypeAssertion

/-- Embedding of `generateContext` (deploy.go): build the service handle, then the runtime
target descriptor — run type Local with the port flag, switched to K8s with
the pod coordinate when `podFlag` is non-empty — and `Put` both. -/
def generateContext (flags : Flags) : Ctx :=
  let c : Ctx := {}
  let c := c.putArkService ArkService.service StageTag.generateContext
  let info : ArkContainerRuntimeInfo :=
    { runType := ArkContainerRunType.Local, port := flags.portFlag,
      coordinate := "" }
  let info :=
    if flags.podFlag ≠ "" then
      { info with runType := ArkContainerRunType.K8s,
                  coordinate := flags.podFlag }
    else info
  c.putArkContainerRuntimeInfo info StageTag.generateContext

/-- A pipeline stage as consumed by the driver loop. -/
abbrev Stage := Ctx → Except GoPanic (Bool × Ctx)

/-- Terminal outcome of a pipeline run. -/
inductive RunOutcome
  | succeeded
  | aborted (stage : Nat)
  | panicked (stage : Nat) (p : GoPanic)
  deriving DecidableEq

/-- The driver loop of `executeDeploy`, instrumented: runs the stages in
order starting at index `i`, stopping at the first failure (or propagated
panic); returns the outcome, the final context, and the list of indices of
the stages that were actually invoked, in invocation order. -/
def runStagesFrom (stages : List Stage) (i : Nat) (c : Ctx) :
    RunOutcome × Ctx × List Nat :=
  match stages with
  | [] => (RunOutcome.succeeded, c, [])
  | s :: rest =>
    match s c with
    | Except.error p => (RunOutcome.panicked i p, c, [i])
    | Except.ok (false, c2) => (RunOutcome.aborted i, c2, [i])
    | Except.ok (true, c2) =>
      let r := runStagesFrom rest (i + 1) c2
      (r.1, r.2.1, i :: r.2.2)

/-- The `todos` list of `executeDeploy` (deploy.go): exactly
build, resolve, uninstall, install, in this order. -/
def todos (env : Env) (flags : Flags) (st : ArgsState) : List Stage :=
  [execMavenBuild env st, execParseBizModel env flags st,
   execUnInstall env, execInstall env]

/-- Embedding of `executeDeploy` (deploy.go): generate the context, then run the todos
in order, returning at the first stage that reports failure. -/
def executeDeploy (env : Env) (flags : Flags) (st : ArgsState) :
    RunOutcome × Ctx × List Nat :=
  runStagesFrom (todos env flags st) 0 (generateContext flags)

/-- A whole `arkctl deploy` invocation: cobra runs `DeployCommand.Args`
(fixing `doLocalBuildBundle` and `buildFlag`), then `executeDeploy`. -/
def deployInvocation (env : Env) (flags : Flags) : RunOutcome × Ctx × List Nat :=
  executeDeploy env flags (deployCommandArgs flags)

/-- Whether a walk entry is a hit of the resolver's search: a non-directory
whose file name ends with `-ark-biz.jar` (nil-info entries never match). -/
def isBizJarEntry (e : WalkEntry) : Bool :=
  match e.info with
  | some info => !info.isDir && goHasSuffix info.name arkBizSuffix
  | none => false

/-- The pure selection performed by the walk when no entry panics: the last
matching path in traversal order, or the initial `bundlePath`. -/
def walkSelect (entries : List WalkEntry) (bundlePath : String) : String :=
  entries.foldl (fun acc e => if isBizJarEntry e then e.path else acc) bundlePath

/-- The context writes recorded in an event log: which key, by whom. -/
def putLog (es : List Event) : List (CtxKey × StageTag) :=
  es.filterMap fun e =>
    match e with
    | Event.put k w => some (k, w)
    | _ => none

/-- The runtime-target descriptor `generateContext` stores: the Kubernetes
variant with the pod coordinate when `podFlag` is non-empty, the Local
variant (coordinate left at Go's zero value `""`) otherwise. -/
def targetInfo (flags : Flags) : ArkContainerRuntimeInfo :=
  if flags.podFlag ≠ "" then
    { runType := ArkContainerRunType.K8s, port := flags.portFlag,
      coordinate := flags.podFlag }
  else
    { runType := ArkContainerRunType.Local, port := flags.portFlag,
      coordinate := "" }

/-- Whether the maven subprocess counts as successful for the build stage:
it ran and exited 0. -/
def mvnSucceeded : MvnResult → Bool
  | MvnResult.launchError => false
  | MvnResult.exited code => code == 0

/-- The events appended by the build stage. -/
def buildEvents (st : ArgsState) : List Event :=
  (if !st.doLocalBuildBundle then [Event.logBuildSkipped] else []) ++
    [Event.mavenExec st.buildFlag]

/-- A concrete environment in which every collaborator succeeds and the
traversal of the build directory delivers one matching artifact; used to
instantiate theorems at concrete inputs. -/
def okEnv : Env :=
  { mvnResult := MvnResult.exited 0,
    walkEntries := [{ path := "/w/target/app-ark-biz.jar",
                      info := some { name := "app-ark-biz.jar", isDir := false },
                      errPresent := false }],
    parseBizModel := fun _ => Except.ok { bizName := "app", bizVersion := "1.0" },
    unInstallBiz := fun _ _ => none,
    installBiz := fun _ _ => none }

/-- Concrete flags of a bare `arkctl deploy` in working directory `/w`. -/
def defaultFlags : Flags :=
  { buildFlag := "", bundleFlag := "", portFlag := 1238, podFlag := "",
    bundleChanged := false, buildChanged := false, cwd := "/w" }

/-- Concrete flags with `--bundle file:///b-ark-biz.jar` supplied. -/
def bundleUrlFlags : Flags :=
  { defaultFlags with
    bundleChanged := true, bundleFlag := "file:///b-ark-biz.jar" }

/-- Concrete flags with `--bundle /tmp/app-ark-biz.jar`, a local filesystem
path, supplied. -/
def bundlePathFlags : Flags :=
  { defaultFlags with
    bundleChanged := true, bundleFlag := "/tmp/app-ark-biz.jar" }

/-- A concrete environment whose traversal holds two matching artifacts,
to exhibit last-match selection. -/
def twoMatchEnv : Env :=
  { okEnv with walkEntries :=
      [{ path := "/w/a-ark-biz.jar",
         info := some { name := "a-ark-biz.jar", isDir := false },
         errPresent := false },
       { path := "/w/b-ark-biz.jar",
         info := some { name := "b-ark-biz.jar", isDir := false },
         errPresent := false }] }

/-! ### Basic lemmas -/

theorem putLog_append (a b : List Event) : putLog (a ++ b) = putLog a ++ putLog b := by
  simp [putLog, List.filterMap_append]

theorem goHasSuffix_iff (s suf : String) :
    goHasSuffix s suf = true ↔ suf.data <:+ s.data := by
  simp [goHasSuffix, List.IsSuffix]

theorem goHasSuffix_append_left (d n suf : String)
    (h : goHasSuffix n suf = true) : goHasSuffix (d ++ n) suf = true := by
  rw [goHasSuffix_iff] at h ⊢
  rw [String.data_append]
  exact h.trans (List.suffix_append d.data n.data)

/-! ### Walk lemmas -/

theorem filepathWalk_readable (entries : List WalkEntry) (acc : String)
    (hOK : ∀ e ∈ entries, e.info.isSome) :
    filepathWalk entries acc = Except.ok (walkSelect entries acc) := by
  induction entries generalizing acc with
  | nil => simp [filepathWalk, walkSelect]
  | cons e rest ih =>
    obtain ⟨info, hinfo⟩ := Option.isSome_iff_exists.mp (hOK e (by simp))
    have hrest : ∀ x ∈ rest, x.info.isSome := fun x hx => hOK x (by simp [hx])
    simp only [filepathWalk, walkCallback, hinfo]
    rw [ih _ hrest]
    simp [walkSelect, isBizJarEntry, hinfo, List.foldl_cons]

theorem filepathWalk_panics (entries : List WalkEntry) (acc : String)
    (hnil : ∃ e ∈ entries, e.info = none) :
    filepathWalk entries acc = Except.error GoPanic.nilFileInfo := by
  induction entries generalizing acc with
  | nil => simp at hnil
  | cons e rest ih =>
    cases hinfo : e.info with
    | none => simp [filepathWalk, walkCallback, hinfo]
    | some info =>
      obtain ⟨x, hx, hxnone⟩ := hnil
      rcases List.mem_cons.mp hx with hx | hx
      · subst hx; rw [hinfo] at hxnone; cases hxnone
      · simp only [filepathWalk, walkCallback, hinfo]
        exact ih _ ⟨x, hx, hxnone⟩

theorem walkSelect_no_match (entries : List WalkEntry) (acc : String)
    (h : ∀ e ∈ entries, isBizJarEntry e = false) :
    walkSelect entries acc = acc := by
  induction entries generalizing acc with
  | nil => rfl
  | cons e rest ih =>
    have he : isBizJarEntry e = false := h e (by simp)
    simp only [walkSelect, List.foldl_cons, he]
    exact ih acc (fun x hx => h x (by simp [hx]))

theorem walkSelect_last_match (entries : List WalkEntry) (acc : String)
    (e : WalkEntry) (h : entries.reverse.find? isBizJarEntry = some e) :
    walkSelect entries acc = e.path := by
  induction entries using List.reverseRecOn generalizing acc with
  | nil => simp at h
  | append_singleton rest x ih =>
    rw [List.reverse_append, List.reverse_singleton, List.singleton_append,
      List.find?_cons] at h
    unfold walkSelect
    rw [List.foldl_append]
    cases hx : isBizJarEntry x with
    | true =>
      rw [hx] at h
      simp only [List.foldl_cons, List.foldl_nil, hx, if_true]
      cases h; rfl
    | false =>
      rw [hx] at h
      simp only [List.foldl_cons, List.foldl_nil, hx, if_false]
      exact ih acc h

theorem find?_of_exists_match (entries : List WalkEntry)
    (h : ∃ e ∈ entries, isBizJarEntry e = true) :
    ∃ e, entries.reverse.find? isBizJarEntry = some e ∧ e ∈ entries ∧
      isBizJarEntry e = true := by
  cases hf : entries.reverse.find? isBizJarEntry with
  | none =>
    obtain ⟨e, he, hmatch⟩ := h
    have := List.find?_eq_none.mp hf e (List.mem_reverse.mpr he)
    simp [hmatch] at this
  | some e =>
    exact ⟨e, rfl, List.mem_reverse.mp (List.mem_of_find?_eq_some hf),
      List.find?_some hf⟩

/-! ### Driver-loop lemmas -/

theorem runStagesFrom_trace_range (stages : List Stage) (i : Nat) (c : Ctx) :
    ∃ n, n ≤ stages.length ∧ (runStagesFrom stages i c).2.2 = List.range' i n := by
  induction stages generalizing i c with
  | nil => exact ⟨0, by simp, rfl⟩
  | cons s rest ih =>
    cases hs : s c with
    | error p => exact ⟨1, by simp, by simp [runStagesFrom, hs]⟩
    | ok bc =>
      obtain ⟨b, c2⟩ := bc
      cases b with
      | false => exact ⟨1, by simp, by simp [runStagesFrom, hs]⟩
      | true =>
        obtain ⟨n, hn, htr⟩ := ih (i + 1) c2
        refine ⟨n + 1, by simpa using hn, ?_⟩
        simp [runStagesFrom, hs, htr, List.range'_succ]

theorem runStagesFrom_aborted (stages : List Stage) (i : Nat) (c : Ctx)
    (k : Nat) (h : (runStagesFrom stages i c).1 = RunOutcome.aborted k) :
    i ≤ k ∧ (runStagesFrom stages i c).2.2 = List.range' i (k + 1 - i) := by
  induction stages generalizing i c with
  | nil => simp [runStagesFrom] at h
  | cons s rest ih =>
    cases hs : s c with
    | error p => simp [runStagesFrom, hs] at h
    | ok bc =>
      obtain ⟨b, c2⟩ := bc
      cases b with
      | false =>
        simp only [runStagesFrom, hs] at h ⊢
        rw [RunOutcome.aborted.injEq] at h
        subst h
        simp
      | true =>
        simp only [runStagesFrom, hs] at h ⊢
        obtain ⟨hik, htr⟩ := ih (i + 1) c2 h
        refine ⟨by omega, ?_⟩
        rw [htr, show k + 1 - i = (k - i) + 1 by omega, List.range'_succ,
          show k + 1 - (i + 1) = k - i by omega]

theorem runStagesFrom_succeeded (stages : List Stage) (i : Nat) (c : Ctx)
    (h : (runStagesFrom stages i c).1 = RunOutcome.succeeded) :
    (runStagesFrom stages i c).2.2 = List.range' i stages.length := by
  induction stages generalizing i c with
  | nil => simp [runStagesFrom]
  | cons s rest ih =>
    cases hs : s c with
    | error p => simp [runStagesFrom, hs] at h
    | ok bc =>
      obtain ⟨b, c2⟩ := bc
      cases b with
      | false => simp [runStagesFrom, hs] at h
      | true =>
        simp only [runStagesFrom, hs] at h ⊢
        rw [ih (i + 1) c2 h, List.length_cons, List.range'_succ]

theorem runStagesFrom_preserves_rt (stages : List Stage) (i : Nat) (c : Ctx)
    (h : ∀ s ∈ stages, ∀ c1 b c2, s c1 = Except.ok (b, c2) →
      c2.arkContainerRuntimeInfo = c1.arkContainerRuntimeInfo) :
    (runStagesFrom stages i c).2.1.arkContainerRuntimeInfo =
      c.arkContainerRuntimeInfo := by
  induction stages generalizing i c with
  | nil => rfl
  | cons s rest ih =>
    cases hs : s c with
    | error p => simp [runStagesFrom, hs]
    | ok bc =>
      obtain ⟨b, c2⟩ := bc
      have hf : c2.arkContainerRuntimeInfo = c.arkContainerRuntimeInfo :=
        h s (by simp) c b c2 hs
      cases b with
      | false => simp [runStagesFrom, hs, hf]
      | true =>
        simp only [runStagesFrom, hs]
        rw [ih (i + 1) c2 (fun x hx => h x (by simp [hx]))]
        exact hf

/-! ### Stage-level lemmas -/

theorem generateContext_eq (flags : Flags) :
    generateContext flags =
      { arkService := some ArkService.service,
        bizModel := none,
        arkContainerRuntimeInfo := some (targetInfo flags),
        events := [Event.put CtxKey.arkService StageTag.generateContext,
                   Event.put CtxKey.arkContainerRuntimeInfo
                     StageTag.generateContext] } := by
  by_cases hp : flags.podFlag = "" <;>
    simp [generateContext, Ctx.putArkService, Ctx.putArkContainerRuntimeInfo,
      targetInfo, hp]

theorem execMavenBuild_eq (env : Env) (st : ArgsState) (c : Ctx) :
    execMavenBuild env st c =
      Except.ok (mvnSucceeded env.mvnResult,
        { c with events := c.events ++ buildEvents st }) := by
  cases hm : env.mvnResult with
  | launchError =>
    cases hd : st.doLocalBuildBundle <;>
      simp [execMavenBuild, mvnWaitErr, mvnSucceeded, buildEvents, hd, hm]
  | exited code =>
    by_cases hc : code = 0 <;> cases hd : st.doLocalBuildBundle <;>
      simp [execMavenBuild, mvnWaitErr, mvnGetExitError, mvnSucceeded,
        buildEvents, hd, hm, hc]

theorem parseAndStore_result (env : Env) (loc : String) (c : Ctx) :
    ∃ b c2, parseAndStore env loc c = Except.ok (b, c2) ∧
      c2.arkService = c.arkService ∧
      c2.arkContainerRuntimeInfo = c.arkContainerRuntimeInfo ∧
      (b = true → c2.bizModel.isSome) ∧
      Event.parseBizModel loc ∈ c2.events ∧
      putLog c2.events = putLog c.events ++
        (if b then [(CtxKey.bizModel, StageTag.execParseBizModel)] else []) ∧
      (∀ loc2, Event.parseBizModel loc2 ∈ c2.events →
        Event.parseBizModel loc2 ∈ c.events ∨ loc2 = loc) ∧
      (∀ d, Event.walkDir d ∈ c2.events → Event.walkDir d ∈ c.events) := by
  cases hp : env.parseBizModel loc with
  | error e =>
    refine ⟨false, { c with events := c.events ++ [Event.parseBizModel loc] },
      by simp [parseAndStore, hp], by simp, by simp, by simp, by simp,
      by simp [putLog_append, putLog], ?_, by simp⟩
    intro loc2 h
    simp only [List.mem_append, List.mem_singleton] at h
    rcases h with h | h
    · exact Or.inl h
    · exact Or.inr (by injection h)
  | ok m =>
    refine ⟨true,
      { c with bizModel := some m,
               events := (c.events ++ [Event.parseBizModel loc]) ++
                 [Event.put CtxKey.bizModel StageTag.execParseBizModel] },
      by simp [parseAndStore, hp, Ctx.putBizModel], by simp, by simp,
      by simp, by simp, by simp [putLog_append, putLog], ?_, by simp⟩
    intro loc2 h
    simp only [List.mem_append, List.mem_singleton] at h
    rcases h with (h | h) | h
    · exact Or.inl h
    · exact Or.inr (by injection h)
    · cases h

theorem execParseBizModel_local_eq (env : Env) (flags : Flags) (st : ArgsState)
    (c : Ctx) (hd : st.doLocalBuildBundle = true)
    (hOK : ∀ e ∈ env.walkEntries, e.info.isSome) :
    execParseBizModel env flags st c =
      (if goHasSuffix (walkSelect env.walkEntries flags.bundleFlag) arkBizSuffix
       then
        parseAndStore env
          ("file://" ++ walkSelect env.walkEntries flags.bundleFlag)
          { c with events := c.events ++
              [Event.walkDir (if st.buildFlag = "" then flags.cwd
                              else st.buildFlag)] }
       else
        Except.ok (false, { c with events := c.events ++
          [Event.walkDir (if st.buildFlag = "" then flags.cwd else st.buildFlag),
           Event.resolutionError] })) := by
  unfold execParseBizModel
  rw [hd, filepathWalk_readable _ _ hOK]
  cases hsuf : goHasSuffix (walkSelect env.walkEntries flags.bundleFlag)
      arkBizSuffix <;>
    simp [hsuf]

theorem execParseBizModel_supplied_eq (env : Env) (flags : Flags)
    (st : ArgsState) (c : Ctx) (hd : st.doLocalBuildBundle = false) :
    execParseBizModel env flags st c = parseAndStore env flags.bundleFlag c := by
  unfold execParseBizModel
  rw [hd]
  simp

theorem execParseBizModel_result (env : Env) (flags : Flags) (st : ArgsState)
    (c : Ctx) (hOK : ∀ e ∈ env.walkEntries, e.info.isSome) :
    ∃ b c2, execParseBizModel env flags st c = Except.ok (b, c2) ∧
      c2.arkService = c.arkService ∧
      c2.arkContainerRuntimeInfo = c.arkContainerRuntimeInfo ∧
      (b = true → c2.bizModel.isSome) ∧
      putLog c2.events = putLog c.events ++
        (if b then [(CtxKey.bizModel, StageTag.execParseBizModel)] else []) := by
  cases hd : st.doLocalBuildBundle with
  | false =>
    rw [execParseBizModel_supplied_eq env flags st c hd]
    obtain ⟨b, c2, heq, h1, h2, h3, _, h4, _, _⟩ :=
      parseAndStore_result env flags.bundleFlag c
    exact ⟨b, c2, heq, h1, h2, h3, h4⟩
  | true =>
    rw [execParseBizModel_local_eq env flags st c hd hOK]
    cases hsuf : goHasSuffix (walkSelect env.walkEntries flags.bundleFlag)
        arkBizSuffix with
    | false =>
      refine ⟨false, _, by rw [if_neg (by simp [hsuf])], by simp, by simp,
        by simp, ?_⟩
      simp [putLog_append, putLog]
    | true =>
      rw [if_pos (by simp [hsuf])]
      obtain ⟨b, c2, heq, h1, h2, h3, _, h4, _, _⟩ :=
        parseAndStore_result env
          ("file://" ++ walkSelect env.walkEntries flags.bundleFlag)
          { c with events := c.events ++
              [Event.walkDir (if st.buildFlag = "" then flags.cwd
                              else st.buildFlag)] }
      refine ⟨b, c2, heq, by simpa using h1, by simpa using h2, h3, ?_⟩
      rw [h4]
      simp [putLog_append, putLog]

theorem execUnInstall_result (env : Env) (c : Ctx)
    (h1 : c.arkService.isSome) (h2 : c.bizModel.isSome)
    (h3 : c.arkContainerRuntimeInfo.isSome) :
    ∃ b, execUnInstall env c = Except.ok (b, c) := by
  obtain ⟨s, hs⟩ := Option.isSome_iff_exists.mp h1
  obtain ⟨m, hm⟩ := Option.isSome_iff_exists.mp h2
  obtain ⟨ri, hr⟩ := Option.isSome_iff_exists.mp h3
  unfold execUnInstall
  rw [hs, hm, hr]
  cases hu : env.unInstallBiz m ri with
  | none => exact ⟨true, by simp [hu]⟩
  | some e => exact ⟨false, by simp [hu]⟩

theorem execInstall_result (env : Env) (c : Ctx)
    (h1 : c.arkService.isSome) (h2 : c.bizModel.isSome)
    (h3 : c.arkContainerRuntimeInfo.isSome) :
    ∃ b, execInstall env c = Except.ok (b, c) := by
  obtain ⟨s, hs⟩ := Option.isSome_iff_exists.mp h1
  obtain ⟨m, hm⟩ := Option.isSome_iff_exists.mp h2
  obtain ⟨ri, hr⟩ := Option.isSome_iff_exists.mp h3
  unfold execInstall
  rw [hs, hm, hr]
  cases hu : env.installBiz m ri with
  | none => exact ⟨true, by simp [hu]⟩
  | some e => exact ⟨false, by simp [hu]⟩

/-! ### Pipeline-level lemmas -/

theorem runStagesFrom_cons_true (s : Stage) (rest : List Stage) (i : Nat)
    (c c2 : Ctx) (h : s c = Except.ok (true, c2)) :
    runStagesFrom (s :: rest) i c =
      ((runStagesFrom rest (i + 1) c2).1, (runStagesFrom rest (i + 1) c2).2.1,
        i :: (runStagesFrom rest (i + 1) c2).2.2) := by
  simp [runStagesFrom, h]

theorem runStagesFrom_cons_false (s : Stage) (rest : List Stage) (i : Nat)
    (c c2 : Ctx) (h : s c = Except.ok (false, c2)) :
    runStagesFrom (s :: rest) i c = (RunOutcome.aborted i, c2, [i]) := by
  simp [runStagesFrom, h]

theorem runStagesFrom_cons_panic (s : Stage) (rest : List Stage) (i : Nat)
    (c : Ctx) (p : GoPanic) (h : s c = Except.error p) :
    runStagesFrom (s :: rest) i c = (RunOutcome.panicked i p, c, [i]) := by
  simp [runStagesFrom, h]

theorem deployInvocation_unfold (env : Env) (flags : Flags) :
    deployInvocation env flags =
      runStagesFrom
        [execMavenBuild env (deployCommandArgs flags),
         execParseBizModel env flags (deployCommandArgs flags),
         execUnInstall env, execInstall env] 0 (generateContext flags) := rfl

theorem execMavenBuild_rt (env : Env) (st : ArgsState) (c : Ctx) (b : Bool)
    (c2 : Ctx) (h : execMavenBuild env st c = Except.ok (b, c2)) :
    c2.arkContainerRuntimeInfo = c.arkContainerRuntimeInfo := by
  rw [execMavenBuild_eq] at h
  obtain ⟨-, h2⟩ := Prod.mk.injEq .. ▸ Except.ok.inj h
  rw [← h2]

theorem parseAndStore_rt (env : Env) (loc : String) (c : Ctx) (b : Bool)
    (c2 : Ctx) (h : parseAndStore env loc c = Except.ok (b, c2)) :
    c2.arkContainerRuntimeInfo = c.arkContainerRuntimeInfo := by
  unfold parseAndStore at h
  cases hp : env.parseBizModel loc with
  | error e =>
    rw [hp] at h
    simp only at h
    obtain ⟨-, h2⟩ := Prod.mk.injEq .. ▸ Except.ok.inj h
    rw [← h2]
  | ok m =>
    rw [hp] at h
    simp only at h
    obtain ⟨-, h2⟩ := Prod.mk.injEq .. ▸ Except.ok.inj h
    rw [← h2]
    simp [Ctx.putBizModel]

theorem execParseBizModel_rt (env : Env) (flags : Flags) (st : ArgsState)
    (c : Ctx) (b : Bool) (c2 : Ctx)
    (h : execParseBizModel env flags st c = Except.ok (b, c2)) :
    c2.arkContainerRuntimeInfo = c.arkContainerRuntimeInfo := by
  unfold execParseBizModel at h
  cases hd : st.doLocalBuildBundle with
  | false =>
    rw [hd] at h
    simp only [Bool.false_eq_true, if_false] at h
    exact parseAndStore_rt env flags.bundleFlag c b c2 h
  | true =>
    rw [hd] at h
    simp only [if_true] at h
    cases hw : filepathWalk env.walkEntries flags.bundleFlag with
    | error p => rw [hw] at h; cases h
    | ok bp =>
      rw [hw] at h
      simp only at h
      cases hsuf : (!goHasSuffix bp arkBizSuffix) with
      | true =>
        rw [hsuf] at h
        simp only [if_true] at h
        obtain ⟨-, h2⟩ := Prod.mk.injEq .. ▸ Except.ok.inj h
        rw [← h2]
      | false =>
        rw [hsuf] at h
        simp only [Bool.false_eq_true, if_false] at h
        have := parseAndStore_rt env ("file://" ++ bp) _ b c2 h
        rw [this]

theorem execUnInstall_ctx (env : Env) (c : Ctx) (b : Bool) (c2 : Ctx)
    (h : execUnInstall env c = Except.ok (b, c2)) : c2 = c := by
  unfold execUnInstall at h
  cases hs : c.arkService with
  | none => rw [hs] at h; cases h
  | some s =>
    cases hm : c.bizModel with
    | none => rw [hs, hm] at h; cases h
    | some m =>
      cases hr : c.arkContainerRuntimeInfo with
      | none => rw [hs, hm, hr] at h; cases h
      | some ri =>
        rw [hs, hm, hr] at h
        simp only at h
        cases hu : env.unInstallBiz m ri with
        | none =>
          rw [hu] at h
          exact (Prod.mk.injEq .. ▸ Except.ok.inj h).2.symm
        | some e =>
          rw [hu] at h
          exact (Prod.mk.injEq .. ▸ Except.ok.inj h).2.symm

theorem execInstall_ctx (env : Env) (c : Ctx) (b : Bool) (c2 : Ctx)
    (h : execInstall env c = Except.ok (b, c2)) : c2 = c := by
  unfold execInstall at h
  cases hs : c.arkService with
  | none => rw [hs] at h; cases h
  | some s =>
    cases hm : c.bizModel with
    | none => rw [hs, hm] at h; cases h
    | some m =>
      cases hr : c.arkContainerRuntimeInfo with
      | none => rw [hs, hm, hr] at h; cases h
      | some ri =>
        rw [hs, hm, hr] at h
        simp only at h
        cases hu : env.installBiz m ri with
        | none =>
          rw [hu] at h
          exact (Prod.mk.injEq .. ▸ Except.ok.inj h).2.symm
        | some e =>
          rw [hu] at h
          exact (Prod.mk.injEq .. ▸ Except.ok.inj h).2.symm

theorem putLog_buildEvents (st : ArgsState) : putLog (buildEvents st) = [] := by
  cases h : (!st.doLocalBuildBundle) <;> simp [buildEvents, h, putLog]

theorem resolve_tail_no_panic (env : Env) (flags : Flags) (st : ArgsState)
    (c1 : Ctx) (hOK : ∀ e ∈ env.walkEntries, e.info.isSome)
    (hsvc : c1.arkService.isSome) (hrt : c1.arkContainerRuntimeInfo.isSome) :
    ∀ k p, (runStagesFrom [execParseBizModel env flags st, execUnInstall env,
      execInstall env] 1 c1).1 ≠ RunOutcome.panicked k p := by
  intro k p
  obtain ⟨b1, c2, h1, h1s, h1r, h1m, -⟩ :=
    execParseBizModel_result env flags st c1 hOK
  cases b1 with
  | false => rw [runStagesFrom_cons_false _ _ _ _ _ h1]; simp
  | true =>
    rw [runStagesFrom_cons_true _ _ _ _ _ h1]
    have h2svc : c2.arkService.isSome := by rw [h1s]; exact hsvc
    have h2rt : c2.arkContainerRuntimeInfo.isSome := by rw [h1r]; exact hrt
    have h2biz : c2.bizModel.isSome := h1m rfl
    obtain ⟨b2, h2⟩ := execUnInstall_result env c2 h2svc h2biz h2rt
    cases b2 with
    | false => rw [runStagesFrom_cons_false _ _ _ _ _ h2]; simp
    | true =>
      rw [runStagesFrom_cons_true _ _ _ _ _ h2]
      obtain ⟨b3, h3⟩ := execInstall_result env c2 h2svc h2biz h2rt
      cases b3 with
      | false => rw [runStagesFrom_cons_false _ _ _ _ _ h3]; simp
      | true => rw [runStagesFrom_cons_true _ _ _ _ _ h3]; simp [runStagesFrom]

theorem resolve_tail_succeeded_events (env : Env) (flags : Flags)
    (st : ArgsState) (c1 : Ctx) (hOK : ∀ e ∈ env.walkEntries, e.info.isSome)
    (hsvc : c1.arkService.isSome) (hrt : c1.arkContainerRuntimeInfo.isSome)
    (hs : (runStagesFrom [execParseBizModel env flags st, execUnInstall env,
      execInstall env] 1 c1).1 = RunOutcome.succeeded) :
    putLog (runStagesFrom [execParseBizModel env flags st, execUnInstall env,
        execInstall env] 1 c1).2.1.events =
      putLog c1.events ++ [(CtxKey.bizModel, StageTag.execParseBizModel)] := by
  obtain ⟨b1, c2, h1, h1s, h1r, h1m, h1p⟩ :=
    execParseBizModel_result env flags st c1 hOK
  cases b1 with
  | false => rw [runStagesFrom_cons_false _ _ _ _ _ h1] at hs; simp at hs
  | true =>
    rw [runStagesFrom_cons_true _ _ _ _ _ h1] at hs ⊢
    have h2svc : c2.arkService.isSome := by rw [h1s]; exact hsvc
    have h2rt : c2.arkContainerRuntimeInfo.isSome := by rw [h1r]; exact hrt
    have h2biz : c2.bizModel.isSome := h1m rfl
    obtain ⟨b2, h2⟩ := execUnInstall_result env c2 h2svc h2biz h2rt
    cases b2 with
    | false => rw [runStagesFrom_cons_false _ _ _ _ _ h2] at hs; simp at hs
    | true =>
      rw [runStagesFrom_cons_true _ _ _ _ _ h2] at hs ⊢
      obtain ⟨b3, h3⟩ := execInstall_result env c2 h2svc h2biz h2rt
      cases b3 with
      | false => rw [runStagesFrom_cons_false _ _ _ _ _ h3] at hs; simp at hs
      | true =>
        rw [runStagesFrom_cons_true _ _ _ _ _ h3]
        simp only [runStagesFrom]
        rw [h1p]
        simp

theorem deploy_no_panic (env : Env) (flags : Flags)
    (hOK : ∀ e ∈ env.walkEntries, e.info.isSome) :
    ∀ k p, (deployInvocation env flags).1 ≠ RunOutcome.panicked k p := by
  intro k p
  rw [deployInvocation_unfold]
  have h0 := execMavenBuild_eq env (deployCommandArgs flags) (generateContext flags)
  cases hb0 : mvnSucceeded env.mvnResult with
  | false =>
    rw [hb0] at h0
    rw [runStagesFrom_cons_false _ _ _ _ _ h0]
    simp
  | true =>
    rw [hb0] at h0
    rw [runStagesFrom_cons_true _ _ _ _ _ h0]
    exact resolve_tail_no_panic env flags (deployCommandArgs flags) _ hOK
      (by simp [generateContext_eq]) (by simp [generateContext_eq]) k p

theorem deploy_totality (env : Env) (flags : Flags)
    (hOK : ∀ e ∈ env.walkEntries, e.info.isSome) :
    (deployInvocation env flags).1 = RunOutcome.succeeded ∨
      ∃ k, k ≤ 3 ∧ (deployInvocation env flags).1 = RunOutcome.aborted k := by
  cases ho : (deployInvocation env flags).1 with
  | succeeded => exact Or.inl rfl
  | panicked k p => exact absurd ho (deploy_no_panic env flags hOK k p)
  | aborted k =>
    refine Or.inr ⟨k, ?_, rfl⟩
    rw [deployInvocation_unfold] at ho
    obtain ⟨-, htr⟩ := runStagesFrom_aborted _ 0 _ k ho
    obtain ⟨n, hn, htr2⟩ := runStagesFrom_trace_range
      [execMavenBuild env (deployCommandArgs flags),
       execParseBizModel env flags (deployCommandArgs flags),
       execUnInstall env, execInstall env] 0 (generateContext flags)
    have hlen := congrArg List.length (htr.symm.trans htr2)
    simp only [List.length_range'] at hlen
    simp only [List.length_cons, List.length_nil] at hn
    omega

/-! ### Claims -/

/-- Claim C2: for every deploy pipeline run, if the stage at index `k`
reports failure, no stage with index greater than `k` is executed in that
run — the driver short-circuits at the first failure, with no rollback and
no retry. -/
theorem deploy_fail_fast (env : Env) (flags : Flags) (k : Nat)
    (h : (deployInvocation env flags).1 = RunOutcome.aborted k) :
    ∀ j, k < j → j ∉ (deployInvocation env flags).2.2 := by
  intro j hj hmem
  rw [deployInvocation_unfold] at h hmem
  obtain ⟨-, htr⟩ := runStagesFrom_aborted _ 0 _ k h
  rw [htr, List.mem_range'_1] at hmem
  omega

/-- Witness for C2: maven exits 1, the build stage (index 0) aborts the
run, and stage 1 is not executed. -/
theorem deploy_fail_fast_witness :
    (deployInvocation { okEnv with mvnResult := MvnResult.exited 1 }
      defaultFlags).1 = RunOutcome.aborted 0 ∧
    1 ∉ (deployInvocation { okEnv with mvnResult := MvnResult.exited 1 }
      defaultFlags).2.2 :=
  ⟨by decide, deploy_fail_fast _ _ 0 (by decide) 1 (by decide)⟩

/-- Claim C3: every run executes a prefix of the fixed ordered stage list
[Build, Resolve, Uninstall, Install]: the invocation trace is `[0..n)` for
some `n ≤ 4` (no skips), has no duplicates (no stage runs twice), the run
ends in Succeeded or Aborted-at-`k` with `k ≤ 3` (never a panic, for a
readable traversal), success of the last stage means all four ran in order,
and an abort at `k` means exactly stages `0..k` ran. -/
theorem deploy_state_machine (env : Env) (flags : Flags)
    (hOK : ∀ e ∈ env.walkEntries, e.info.isSome) :
    (∃ n, n ≤ 4 ∧ (deployInvocation env flags).2.2 = List.range' 0 n) ∧
    (deployInvocation env flags).2.2.Nodup ∧
    ((deployInvocation env flags).1 = RunOutcome.succeeded ∨
      ∃ k, k ≤ 3 ∧ (deployInvocation env flags).1 = RunOutcome.aborted k) ∧
    ((deployInvocation env flags).1 = RunOutcome.succeeded →
      (deployInvocation env flags).2.2 = [0, 1, 2, 3]) ∧
    (∀ k, (deployInvocation env flags).1 = RunOutcome.aborted k →
      (deployInvocation env flags).2.2 = List.range' 0 (k + 1)) := by
  obtain ⟨n, hn, htr⟩ := runStagesFrom_trace_range
    [execMavenBuild env (deployCommandArgs flags),
     execParseBizModel env flags (deployCommandArgs flags),
     execUnInstall env, execInstall env] 0 (generateContext flags)
  simp only [List.length_cons, List.length_nil] at hn
  refine ⟨⟨n, by omega, by rw [deployInvocation_unfold]; exact htr⟩, ?_,
    deploy_totality env flags hOK, ?_, ?_⟩
  · rw [deployInvocation_unfold, htr]
    exact List.nodup_range' 0 n
  · intro hsucc
    rw [deployInvocation_unfold] at hsucc ⊢
    rw [runStagesFrom_succeeded _ _ _ hsucc]
    rfl
  · intro k hab
    rw [deployInvocation_unfold] at hab ⊢
    obtain ⟨-, htr'⟩ := runStagesFrom_aborted _ 0 _ k hab
    rw [htr']
    simp

/-- Witness for C3 at a concrete all-success run. -/
theorem deploy_state_machine_witness :
    (∃ n, n ≤ 4 ∧ (deployInvocation okEnv defaultFlags).2.2 = List.range' 0 n) ∧
    (deployInvocation okEnv defaultFlags).2.2.Nodup ∧
    ((deployInvocation okEnv defaultFlags).1 = RunOutcome.succeeded ∨
      ∃ k, k ≤ 3 ∧ (deployInvocation okEnv defaultFlags).1 = RunOutcome.aborted k) ∧
    ((deployInvocation okEnv defaultFlags).1 = RunOutcome.succeeded →
      (deployInvocation okEnv defaultFlags).2.2 = [0, 1, 2, 3]) ∧
    (∀ k, (deployInvocation okEnv defaultFlags).1 = RunOutcome.aborted k →
      (deployInvocation okEnv defaultFlags).2.2 = List.range' 0 (k + 1)) :=
  deploy_state_machine okEnv defaultFlags (by decide)

/-- Claim C4: when the maven subprocess cannot be spawned (the modelled
runner reports a launch error), the build stage returns failure and no later
stage runs: the pipeline aborts at stage 0 with trace `[0]`. The subprocess
runner itself (`cmdutil`) is not under `src/` and is modelled from the
spec (§4.2, §5, §7). -/
theorem launch_error_terminal (env : Env) (flags : Flags)
    (h : env.mvnResult = MvnResult.launchError) :
    (deployInvocation env flags).1 = RunOutcome.aborted 0 ∧
    (deployInvocation env flags).2.2 = [0] := by
  have h0 := execMavenBuild_eq env (deployCommandArgs flags)
    (generateContext flags)
  rw [h] at h0
  simp only [mvnSucceeded] at h0
  rw [deployInvocation_unfold, runStagesFrom_cons_false _ _ _ _ _ h0]
  exact ⟨rfl, rfl⟩

/-- Witness for C4 at a concrete launch failure. -/
theorem launch_error_terminal_witness :
    (deployInvocation { okEnv with mvnResult := MvnResult.launchError }
      defaultFlags).1 = RunOutcome.aborted 0 ∧
    (deployInvocation { okEnv with mvnResult := MvnResult.launchError }
      defaultFlags).2.2 = [0] :=
  launch_error_terminal _ _ rfl

/-- Claim C7: when the resolve stage searches a build directory whose
traversal contains no file matching `-ark-biz.jar` (and no bundle was
supplied, so `bundleFlag` is its default `""`), the stage logs the
bundle-not-found resolution error, returns failure to the driver, and the
pipeline stops after stage 1 (given a build that succeeded). -/
theorem resolution_error_stops (env : Env) (flags : Flags)
    (hdlb : (deployCommandArgs flags).doLocalBuildBundle = true)
    (hbf : flags.bundleFlag = "")
    (hmvn : env.mvnResult = MvnResult.exited 0)
    (hOK : ∀ e ∈ env.walkEntries, e.info.isSome)
    (hnone : ∀ e ∈ env.walkEntries, isBizJarEntry e = false) :
    (deployInvocation env flags).1 = RunOutcome.aborted 1 ∧
    (deployInvocation env flags).2.2 = [0, 1] ∧
    Event.resolutionError ∈ (deployInvocation env flags).2.1.events := by
  have h0 := execMavenBuild_eq env (deployCommandArgs flags)
    (generateContext flags)
  rw [hmvn] at h0
  simp only [mvnSucceeded, beq_self_eq_true] at h0
  rw [deployInvocation_unfold, runStagesFrom_cons_true _ _ _ _ _ h0]
  have h1 := execParseBizModel_local_eq env flags (deployCommandArgs flags)
    { generateContext flags with
      events := (generateContext flags).events ++
        buildEvents (deployCommandArgs flags) } hdlb hOK
  rw [hbf, walkSelect_no_match _ _ hnone,
    show goHasSuffix ("") arkBizSuffix = false by decide] at h1
  simp only [Bool.false_eq_true, if_false] at h1
  rw [runStagesFrom_cons_false _ _ _ _ _ h1]
  refine ⟨rfl, rfl, ?_⟩
  simp

/-- Witness for C7: an empty traversal, successful build. -/
theorem resolution_error_stops_witness :
    (deployInvocation { okEnv with walkEntries := [] } defaultFlags).1 =
      RunOutcome.aborted 1 ∧
    (deployInvocation { okEnv with walkEntries := [] } defaultFlags).2.2 =
      [0, 1] ∧
    Event.resolutionError ∈
      (deployInvocation { okEnv with walkEntries := [] }
        defaultFlags).2.1.events :=
  resolution_error_stops _ _ (by decide) rfl rfl (by decide) (by decide)

/-- Claim C8: context construction stores a runtime-target descriptor that
is the Kubernetes variant carrying exactly the pod coordinate and the port
when the pod coordinate is non-empty, and the Local variant carrying the
port with the coordinate left empty otherwise; the choice is fixed at
construction and the descriptor in the context is never mutated by any
stage of the run. -/
theorem runtime_target_selection (env : Env) (flags : Flags) :
    (generateContext flags).arkContainerRuntimeInfo = some (targetInfo flags) ∧
    (flags.podFlag ≠ "" → targetInfo flags =
      { runType := ArkContainerRunType.K8s, port := flags.portFlag,
        coordinate := flags.podFlag }) ∧
    (flags.podFlag = "" → targetInfo flags =
      { runType := ArkContainerRunType.Local, port := flags.portFlag,
        coordinate := "" }) ∧
    (deployInvocation env flags).2.1.arkContainerRuntimeInfo =
      some (targetInfo flags) := by
  have hpres : ∀ s ∈ [execMavenBuild env (deployCommandArgs flags),
      execParseBizModel env flags (deployCommandArgs flags),
      execUnInstall env, execInstall env], ∀ c1 b c2,
      s c1 = Except.ok (b, c2) →
      c2.arkContainerRuntimeInfo = c1.arkContainerRuntimeInfo := by
    intro s hmem c1 b c2 heq
    simp only [List.mem_cons, List.not_mem_nil, or_false] at hmem
    rcases hmem with rfl | rfl | rfl | rfl
    · exact execMavenBuild_rt env _ c1 b c2 heq
    · exact execParseBizModel_rt env flags _ c1 b c2 heq
    · rw [execUnInstall_ctx env c1 b c2 heq]
    · rw [execInstall_ctx env c1 b c2 heq]
  refine ⟨by simp [generateContext_eq], fun h => by simp [targetInfo, h],
    fun h => by simp [targetInfo, h], ?_⟩
  rw [deployInvocation_unfold, runStagesFrom_preserves_rt _ 0 _ hpres]
  simp [generateContext_eq]

/-- Witness for C8: `--pod ns/name --port 1238` yields the Kubernetes
variant with those two fields; no pod flag yields the Local variant. -/
theorem runtime_target_selection_witness :
    targetInfo { defaultFlags with podFlag := "ns/name" } =
      { runType := ArkContainerRunType.K8s, port := 1238,
        coordinate := "ns/name" } ∧
    targetInfo defaultFlags =
      { runType := ArkContainerRunType.Local, port := 1238,
        coordinate := "" } :=
  ⟨(runtime_target_selection okEnv { defaultFlags with podFlag := "ns/name" }).2.1
      (by decide),
    (runtime_target_selection okEnv defaultFlags).2.2.1 rfl⟩

/-- Claim C9: in a successful run the well-known context keys are each
written exactly once, by their producer — the service handle and the
runtime-target descriptor at context construction, the module descriptor by
the resolve stage — and no stage ever rewrites them: the run's complete
write log is exactly those three writes, in that order. -/
theorem ctx_keys_written_once (env : Env) (flags : Flags)
    (hOK : ∀ e ∈ env.walkEntries, e.info.isSome)
    (hs : (deployInvocation env flags).1 = RunOutcome.succeeded) :
    putLog (deployInvocation env flags).2.1.events =
      [(CtxKey.arkService, StageTag.generateContext),
       (CtxKey.arkContainerRuntimeInfo, StageTag.generateContext),
       (CtxKey.bizModel, StageTag.execParseBizModel)] := by
  rw [deployInvocation_unfold] at hs ⊢
  have h0 := execMavenBuild_eq env (deployCommandArgs flags)
    (generateContext flags)
  cases hb0 : mvnSucceeded env.mvnResult with
  | false =>
    rw [hb0] at h0
    rw [runStagesFrom_cons_false _ _ _ _ _ h0] at hs
    simp at hs
  | true =>
    rw [hb0] at h0
    rw [runStagesFrom_cons_true _ _ _ _ _ h0] at hs ⊢
    rw [resolve_tail_succeeded_events env flags (deployCommandArgs flags) _
      hOK (by simp [generateContext_eq]) (by simp [generateContext_eq]) hs]
    simp only [putLog_append, putLog_buildEvents]
    simp [generateContext_eq, putLog]

/-- Witness for C9 at a concrete all-success run. -/
theorem ctx_keys_written_once_witness :
    putLog (deployInvocation okEnv defaultFlags).2.1.events =
      [(CtxKey.arkService, StageTag.generateContext),
       (CtxKey.arkContainerRuntimeInfo, StageTag.generateContext),
       (CtxKey.bizModel, StageTag.execParseBizModel)] :=
  ctx_keys_written_once okEnv defaultFlags (by decide) (by decide)

/-- Claim C1 (code bug in `execMavenBuild`): with a pre-built bundle
supplied via `--bundle` (so `doLocalBuildBundle` is false), the build stage
logs "build bundle skipped!" but — lacking an early return — still
constructs and executes the maven subprocess; when that subprocess cannot
even be spawned the stage fails and aborts the whole pipeline, instead of
immediately reporting success as a no-op. -/
theorem build_stage_not_skipped_with_bundle :
    (deployCommandArgs bundleUrlFlags).doLocalBuildBundle = false ∧
    Event.logBuildSkipped ∈
      (deployInvocation { okEnv with mvnResult := MvnResult.launchError }
        bundleUrlFlags).2.1.events ∧
    Event.mavenExec ("") ∈
      (deployInvocation { okEnv with mvnResult := MvnResult.launchError }
        bundleUrlFlags).2.1.events ∧
    (deployInvocation { okEnv with mvnResult := MvnResult.launchError }
      bundleUrlFlags).1 = RunOutcome.aborted 0 := by
  decide

/-- Claim C5 counterexample: with `--bundle /tmp/app-ark-biz.jar` (a local
filesystem path), the locator handed to the parser is exactly that string —
it does not carry the `file://` prefix, so locators supplied via `--bundle`
are not normalized before being handed to the parser. -/
theorem bundle_locator_not_normalized :
    Event.parseBizModel ("/tmp/app-ark-biz.jar") ∈
      (deployInvocation okEnv bundlePathFlags).2.1.events ∧
    List.isPrefixOf ("file://".data) ("/tmp/app-ark-biz.jar".data) = false := by
  decide

/-- Claim C5 (amended): a locator obtained by searching the build directory
is normalized to `"file://" ++ path` before being handed to the parser; a
locator supplied via `--bundle` is handed to the parser unchanged. -/
theorem locator_normalization (env : Env) (flags : Flags) (st : ArgsState)
    (hOK : ∀ e ∈ env.walkEntries, e.info.isSome) :
    (st.doLocalBuildBundle = true →
      ∀ b c2 loc, execParseBizModel env flags st {} = Except.ok (b, c2) →
        Event.parseBizModel loc ∈ c2.events → ∃ p, loc = "file://" ++ p) ∧
    (st.doLocalBuildBundle = false →
      ∃ b c2, execParseBizModel env flags st {} = Except.ok (b, c2) ∧
        Event.parseBizModel flags.bundleFlag ∈ c2.events) := by
  constructor
  · intro hdlb b c2 loc heq hmem
    rw [execParseBizModel_local_eq env flags st {} hdlb hOK] at heq
    cases hsuf : goHasSuffix (walkSelect env.walkEntries flags.bundleFlag)
        arkBizSuffix with
    | false =>
      rw [hsuf] at heq
      simp only [Bool.false_eq_true, if_false] at heq
      obtain ⟨-, hc2⟩ := Prod.mk.injEq .. ▸ Except.ok.inj heq
      rw [← hc2] at hmem
      simp at hmem
    | true =>
      rw [hsuf] at heq
      simp only [if_true] at heq
      obtain ⟨b2, c22, heq2, -, -, -, -, -, honly, -⟩ :=
        parseAndStore_result env
          ("file://" ++ walkSelect env.walkEntries flags.bundleFlag)
          { events := [Event.walkDir (if st.buildFlag = "" then flags.cwd
                                      else st.buildFlag)] }
      obtain ⟨-, hc⟩ := Prod.mk.injEq .. ▸ Except.ok.inj (heq2.symm.trans heq)
      rw [hc] at honly
      rcases honly loc hmem with hin | hloc
      · simp at hin
      · exact ⟨walkSelect env.walkEntries flags.bundleFlag, hloc⟩
  · intro hdlb
    rw [execParseBizModel_supplied_eq env flags st {} hdlb]
    obtain ⟨b, c2, heq, -, -, -, hmem, -, -, -⟩ :=
      parseAndStore_result env flags.bundleFlag {}
    exact ⟨b, c2, heq, hmem⟩

/-- Witness for C5 (amended), on the supplied-bundle side: the parser
receives the `--bundle` value unchanged. -/
theorem locator_normalization_witness :
    ∃ b c2, execParseBizModel okEnv bundleUrlFlags
        (deployCommandArgs bundleUrlFlags) {} = Except.ok (b, c2) ∧
      Event.parseBizModel ("file:///b-ark-biz.jar") ∈ c2.events :=
  (locator_normalization okEnv bundleUrlFlags
    (deployCommandArgs bundleUrlFlags) (by decide)).2 (by decide)

/-- Claim C6: if a bundle was supplied, the resolver uses it directly as the
locator with no directory search; otherwise it walks the build directory and
selects the last entry in traversal order whose file name ends with
`-ark-biz.jar`, so whenever at least one match exists some matching file's
path is handed on — never none. -/
theorem bundle_resolver_selection (env : Env) (flags : Flags)
    (hOK : ∀ e ∈ env.walkEntries, e.info.isSome)
    (hbase : ∀ e ∈ env.walkEntries, ∀ i, e.info = some i →
      ∃ d, e.path = d ++ i.name) :
    ((deployCommandArgs flags).doLocalBuildBundle = false →
      ∃ b c2, execParseBizModel env flags (deployCommandArgs flags) {} =
          Except.ok (b, c2) ∧
        Event.parseBizModel flags.bundleFlag ∈ c2.events ∧
        ∀ d, Event.walkDir d ∉ c2.events) ∧
    ((deployCommandArgs flags).doLocalBuildBundle = true →
      (∃ e ∈ env.walkEntries, isBizJarEntry e = true) →
      ∃ e, env.walkEntries.reverse.find? isBizJarEntry = some e ∧
        e ∈ env.walkEntries ∧ isBizJarEntry e = true ∧
        ∃ b c2, execParseBizModel env flags (deployCommandArgs flags) {} =
            Except.ok (b, c2) ∧
          Event.parseBizModel ("file://" ++ e.path) ∈ c2.events) := by
  constructor
  · intro hdlb
    rw [execParseBizModel_supplied_eq env flags _ {} hdlb]
    obtain ⟨b, c2, heq, -, -, -, hmem, -, -, hwalk⟩ :=
      parseAndStore_result env flags.bundleFlag {}
    refine ⟨b, c2, heq, hmem, fun d hd => ?_⟩
    have := hwalk d hd
    simp at this
  · intro hdlb hex
    obtain ⟨e, hfind, hmem, hmatch⟩ := find?_of_exists_match env.walkEntries hex
    refine ⟨e, hfind, hmem, hmatch, ?_⟩
    have hpath : goHasSuffix e.path arkBizSuffix = true := by
      unfold isBizJarEntry at hmatch
      cases hinfo : e.info with
      | none => rw [hinfo] at hmatch; cases hmatch
      | some i =>
        rw [hinfo] at hmatch
        simp only [Bool.and_eq_true] at hmatch
        obtain ⟨d, hd⟩ := hbase e hmem i hinfo
        rw [hd]
        exact goHasSuffix_append_left d i.name arkBizSuffix hmatch.2
    have hsel : walkSelect env.walkEntries flags.bundleFlag = e.path :=
      walkSelect_last_match env.walkEntries flags.bundleFlag e hfind
    rw [execParseBizModel_local_eq env flags _ {} hdlb hOK, hsel, hpath]
    simp only [if_true]
    obtain ⟨b, c2, heq, -, -, -, hmem2, -, -, -⟩ :=
      parseAndStore_result env ("file://" ++ e.path)
        { events := [Event.walkDir
            (if (deployCommandArgs flags).buildFlag = "" then flags.cwd
             else (deployCommandArgs flags).buildFlag)] }
    exact ⟨b, c2, heq, hmem2⟩

/-- Witness for C6 at a traversal with two matching artifacts: the second
(last in traversal order) is selected and handed on as a file:// locator. -/
theorem bundle_resolver_selection_witness :
    ∃ e, twoMatchEnv.walkEntries.reverse.find? isBizJarEntry = some e ∧
      e ∈ twoMatchEnv.walkEntries ∧ isBizJarEntry e = true ∧
      ∃ b c2, execParseBizModel twoMatchEnv defaultFlags
          (deployCommandArgs defaultFlags) {} = Except.ok (b, c2) ∧
        Event.parseBizModel ("file://" ++ e.path) ∈ c2.events :=
  (bundle_resolver_selection twoMatchEnv defaultFlags (by decide)
    (by
      intro e he i hi
      rcases List.mem_cons.mp he with rfl | he2
      · have hi2 : ({ name := "a-ark-biz.jar", isDir := false } :
            FileInfoData) = i := Option.some.inj hi
        refine ⟨"/w/", ?_⟩
        rw [← hi2]
        decide
      · rcases List.mem_cons.mp he2 with rfl | he3
        · have hi2 : ({ name := "b-ark-biz.jar", isDir := false } :
              FileInfoData) = i := Option.some.inj hi
          refine ⟨"/w/", ?_⟩
          rw [← hi2]
          decide
        · simp at he3)).2 (by decide) (by decide)

/-- Claim C10: the resolve stage's walk callback dereferences its FileInfo
argument without inspecting the walk-error argument, so any traversal that
reports an error with a nil FileInfo makes the resolve stage panic (nil
interface dereference) instead of returning failure to the driver. -/
theorem nil_fileinfo_panics (env : Env) (flags : Flags) (st : ArgsState)
    (c : Ctx) (hdlb : st.doLocalBuildBundle = true)
    (hnil : ∃ e ∈ env.walkEntries, e.info = none) :
    execParseBizModel env flags st c = Except.error GoPanic.nilFileInfo := by
  unfold execParseBizModel
  rw [hdlb, if_pos rfl, filepathWalk_panics _ _ hnil]

/-- Witness for C10: a traversal whose single entry carries a nil FileInfo
(with the error argument set), as delivered for an unreadable entry. -/
theorem nil_fileinfo_panics_witness :
    execParseBizModel
      { okEnv with walkEntries :=
          [{ path := "/w/sub", info := none, errPresent := true }] }
      defaultFlags (deployCommandArgs defaultFlags) {} =
      Except.error GoPanic.nilFileInfo :=
  nil_fileinfo_panics _ _ _ _ (by decide) (by decide)

end ArkctlDeploy
